import Mathlib

/-
Verification of the preprocessor behaviour of
Sources/CSQLCipher/include/sqlcipher_extras.h (vapor/sqlite-nio).

The header is pure preprocessor code.  We embed the fragment of the C
preprocessor it exercises: a table of object-like macro definitions, a
stack of conditional-inclusion flags, the stream of emitted (non-directive)
tokens, and the stream of diagnostics.  The header itself is translated
line for line into that embedding.
-/

namespace SQLCipherExtras

/-- The replacement list of an object-like macro: a list of tokens. -/
abbrev Replacement := List String

/-- The macro table of a preprocessor state: an association list from
macro names to replacement lists, most recent definition first. -/
structure PPState where
  defs : List (String × Replacement)
  deriving DecidableEq, Repr

/-- The preprocessor state at the start of a translation unit with no
command-line definitions. -/
def emptyState : PPState := ⟨[]⟩

/-- Look a name up in an association list of definitions. -/
def lookupL : List (String × Replacement) → String → Option Replacement
  | [], _ => none
  | p :: ps, n => if p.1 = n then some p.2 else lookupL ps n

/-- The replacement list a name is currently defined to, if any. -/
def lookupDef (s : PPState) (n : String) : Option Replacement :=
  lookupL s.defs n

/-- Whether a name is currently defined as a macro. -/
def isDefined (s : PPState) (n : String) : Bool :=
  (lookupDef s n).isSome

/-- Record a definition of name n with replacement r. -/
def defineSym (s : PPState) (n : String) (r : Replacement) : PPState :=
  ⟨(n, r) :: s.defs⟩

/-- Read a run of decimal digits, accumulating their value. -/
def digitsVal : List Char → Nat → Option Nat
  | [], acc => some acc
  | ch :: cs, acc =>
    if ch.isDigit then digitsVal cs (acc * 10 + (ch.toNat - 48)) else none

/-- The value of a token that is a decimal integer constant, if it is one. -/
def tokenNat (t : String) : Option Nat :=
  match t.data with
  | [] => none
  | ch :: cs => digitsVal (ch :: cs) 0

/-- Whether a name is defined and its replacement is a single token that
reads as a nonzero integer constant. -/
def nonzeroIntDefined (s : PPState) (n : String) : Bool :=
  match lookupDef s n with
  | some [t] =>
    match tokenNat t with
    | some v => v != 0
    | none => false
  | _ => false

/-- The preprocessor lines the header uses: conditional directives on
definedness, object-like definitions, and ordinary text lines. -/
inductive PPLine where
  | ifndefD (n : String)
  | ifdefD (n : String)
  | defineD (n : String) (r : Replacement)
  | endifD
  | text (ts : List String)
  deriving DecidableEq, Repr

/-- A full preprocessor configuration: macro state, the stack of
conditional-group flags, the emitted token stream, and diagnostics. -/
structure PPConfig where
  st : PPState
  stack : List Bool
  emitted : List String
  diags : List String
  deriving DecidableEq, Repr

/-- A region is active when every enclosing conditional group is taken. -/
def active (stk : List Bool) : Bool := stk.all (fun b => b)

/-- Process one preprocessor line.  Conditionals push their flag, endif
pops, a definition in an active region extends the table (diagnosing a
redefinition with a different replacement), and a text line in an active
region emits its tokens. -/
def step (c : PPConfig) (l : PPLine) : PPConfig :=
  match l with
  | .ifndefD n => { c with stack := (!(isDefined c.st n)) :: c.stack }
  | .ifdefD n => { c with stack := (isDefined c.st n) :: c.stack }
  | .endifD => { c with stack := c.stack.tail }
  | .defineD n r =>
    if active c.stack then
      match lookupDef c.st n with
      | some r0 =>
        if r0 = r then c
        else { c with st := defineSym c.st n r,
                      diags := c.diags ++ ["redefinition of " ++ n] }
      | none => { c with st := defineSym c.st n r }
    else c
  | .text ts =>
    if active c.stack then { c with emitted := c.emitted ++ ts } else c

/-- Process a list of preprocessor lines in order. -/
def processLines (c : PPConfig) (ls : List PPLine) : PPConfig :=
  ls.foldl step c

/-- The configuration at the start of processing, from a given initial
macro state. -/
def initConfig (s : PPState) : PPConfig := ⟨s, [], [], []⟩

/-- sqlcipher_extras.h, translated line for line from the source: an
include guard on SQLCIPHER_EXTRAS_H around a guarded definition of
SQLITE_HAS_CODEC to the single token 1. -/
def sqlcipher_extras_h : List PPLine :=
  [ .ifndefD "SQLCIPHER_EXTRAS_H",
    .defineD "SQLCIPHER_EXTRAS_H" [],
    .ifndefD "SQLITE_HAS_CODEC",
    .defineD "SQLITE_HAS_CODEC" ["1"],
    .endifD,
    .endifD ]

/-- Include the header once, starting from a full configuration. -/
def includeOnce (c : PPConfig) : PPConfig :=
  processLines c sqlcipher_extras_h

/-- The macro state after including the header once from a given state. -/
def includeExtras (s : PPState) : PPState :=
  (includeOnce (initConfig s)).st

/-- Include the header n times in sequence. -/
def includeN : Nat → PPConfig → PPConfig
  | 0, c => c
  | Nat.succ n, c => includeN n (includeOnce c)

end SQLCipherExtras

namespace SQLCipherExtras

theorem lookupDef_defineSym (s : PPState) (m n : String) (r : Replacement) :
    lookupDef (defineSym s m r) n = if m = n then some r else lookupDef s n := by
  simp [lookupDef, defineSym, lookupL]

theorem isDefined_defineSym (s : PPState) (m n : String) (r : Replacement) :
    isDefined (defineSym s m r) n =
      if m = n then true else isDefined s n := by
  simp only [isDefined, lookupDef_defineSym]
  split <;> simp

/-- One inclusion of the header from a balanced configuration: the guard
skips everything if SQLCIPHER_EXTRAS_H is defined; otherwise the guard is
recorded and SQLITE_HAS_CODEC is defined to 1 exactly when it was not
already defined.  Nothing is emitted and no diagnostic is produced. -/
theorem includeOnce_char (s : PPState) (e d : List String) :
    includeOnce ⟨s, [], e, d⟩ =
      ⟨if isDefined s "SQLCIPHER_EXTRAS_H" then s
       else if isDefined s "SQLITE_HAS_CODEC" then
         defineSym s "SQLCIPHER_EXTRAS_H" []
       else
         defineSym (defineSym s "SQLCIPHER_EXTRAS_H" []) "SQLITE_HAS_CODEC" ["1"],
       [], e, d⟩ := by
  simp only [includeOnce, processLines, sqlcipher_extras_h, List.foldl]
  cases hg : lookupDef s "SQLCIPHER_EXTRAS_H" with
  | some rg =>
    simp [step, active, isDefined, hg]
  | none =>
    cases hc : lookupDef s "SQLITE_HAS_CODEC" with
    | some rc =>
      simp [step, active, isDefined, hg, hc, lookupDef_defineSym]
    | none =>
      simp [step, active, isDefined, hg, hc, lookupDef_defineSym]

/-- The macro state after one inclusion, as a case split on the two
guarding conditions. -/
theorem includeExtras_eq (s : PPState) :
    includeExtras s =
      if isDefined s "SQLCIPHER_EXTRAS_H" then s
      else if isDefined s "SQLITE_HAS_CODEC" then
        defineSym s "SQLCIPHER_EXTRAS_H" []
      else
        defineSym (defineSym s "SQLCIPHER_EXTRAS_H" []) "SQLITE_HAS_CODEC" ["1"] := by
  simp [includeExtras, initConfig, includeOnce_char]

/-- One inclusion from an initial configuration only changes the macro
state. -/
theorem includeOnce_initConfig (s : PPState) :
    includeOnce (initConfig s) = initConfig (includeExtras s) := by
  simp [initConfig, includeOnce_char, includeExtras]

/-- After any inclusion the include-guard macro is defined. -/
theorem guard_after (s : PPState) :
    isDefined (includeExtras s) "SQLCIPHER_EXTRAS_H" = true := by
  rw [includeExtras_eq]
  cases hg : isDefined s "SQLCIPHER_EXTRAS_H" with
  | true => simp [hg]
  | false =>
    cases hc : isDefined s "SQLITE_HAS_CODEC" <;>
      simp [hg, hc, isDefined_defineSym]

/-- Including the header is idempotent on macro states. -/
theorem includeExtras_idem (s : PPState) :
    includeExtras (includeExtras s) = includeExtras s := by
  rw [includeExtras_eq (includeExtras s), guard_after s]
  simp

/-- Including the header is idempotent on whole configurations that start
from an initial configuration. -/
theorem includeOnce_fix (s : PPState) :
    includeOnce (includeOnce (initConfig s)) = includeOnce (initConfig s) := by
  rw [includeOnce_initConfig, includeOnce_initConfig, includeExtras_idem]

/-- Iterating from a fixed point of one inclusion stays there. -/
theorem includeN_fixed (c : PPConfig) (h : includeOnce c = c) :
    ∀ n, includeN n c = c := by
  intro n
  induction n with
  | zero => rfl
  | succ n ih =>
    show includeN n (includeOnce c) = c
    rw [h]
    exact ih

/-- If SQLITE_HAS_CODEC is already defined, inclusion preserves its
definition exactly. -/
theorem codec_preserved (s : PPState)
    (h : isDefined s "SQLITE_HAS_CODEC" = true) :
    lookupDef (includeExtras s) "SQLITE_HAS_CODEC" =
      lookupDef s "SQLITE_HAS_CODEC" := by
  rw [includeExtras_eq]
  cases hg : isDefined s "SQLCIPHER_EXTRAS_H" <;>
    simp [hg, h, lookupDef_defineSym]

/-- If neither the guard nor SQLITE_HAS_CODEC is defined, inclusion
defines SQLITE_HAS_CODEC to the single token 1. -/
theorem codec_one (s : PPState)
    (hg : isDefined s "SQLCIPHER_EXTRAS_H" = false)
    (hc : isDefined s "SQLITE_HAS_CODEC" = false) :
    lookupDef (includeExtras s) "SQLITE_HAS_CODEC" = some ["1"] := by
  rw [includeExtras_eq, hg, hc]
  simp [lookupDef_defineSym]

/-- Definedness and nonzero-integer evaluation only depend on lookup. -/
theorem nonzeroIntDefined_of_one (s : PPState) (n : String)
    (h : lookupDef s n = some ["1"]) : nonzeroIntDefined s n = true := by
  unfold nonzeroIntDefined
  rw [h]
  decide

/-- Relational small-step semantics of one preprocessor line, one
constructor per branch of the step function. -/
inductive StepRel : PPConfig → PPLine → PPConfig → Prop where
  | ifndefR (c : PPConfig) (n : String) :
      StepRel c (PPLine.ifndefD n)
        ⟨c.st, (!(isDefined c.st n)) :: c.stack, c.emitted, c.diags⟩
  | ifdefR (c : PPConfig) (n : String) :
      StepRel c (PPLine.ifdefD n)
        ⟨c.st, (isDefined c.st n) :: c.stack, c.emitted, c.diags⟩
  | endifR (c : PPConfig) :
      StepRel c PPLine.endifD ⟨c.st, c.stack.tail, c.emitted, c.diags⟩
  | defineSkip (c : PPConfig) (n : String) (r : Replacement)
      (h : active c.stack = false) :
      StepRel c (PPLine.defineD n r) c
  | defineNew (c : PPConfig) (n : String) (r : Replacement)
      (h : active c.stack = true) (h2 : lookupDef c.st n = none) :
      StepRel c (PPLine.defineD n r)
        ⟨defineSym c.st n r, c.stack, c.emitted, c.diags⟩
  | defineSame (c : PPConfig) (n : String) (r : Replacement)
      (h : active c.stack = true) (h2 : lookupDef c.st n = some r) :
      StepRel c (PPLine.defineD n r) c
  | defineRedef (c : PPConfig) (n : String) (r r0 : Replacement)
      (h : active c.stack = true) (h2 : lookupDef c.st n = some r0)
      (h3 : r0 ≠ r) :
      StepRel c (PPLine.defineD n r)
        ⟨defineSym c.st n r, c.stack, c.emitted,
         c.diags ++ ["redefinition of " ++ n]⟩
  | textOn (c : PPConfig) (ts : List String) (h : active c.stack = true) :
      StepRel c (PPLine.text ts) ⟨c.st, c.stack, c.emitted ++ ts, c.diags⟩
  | textOff (c : PPConfig) (ts : List String) (h : active c.stack = false) :
      StepRel c (PPLine.text ts) c

/-- Relational semantics of a list of lines processed in order. -/
inductive RunRel : PPConfig → List PPLine → PPConfig → Prop where
  | nil (c : PPConfig) : RunRel c [] c
  | cons (c c1 c2 : PPConfig) (l : PPLine) (ls : List PPLine)
      (h1 : StepRel c l c1) (h2 : RunRel c1 ls c2) : RunRel c (l :: ls) c2

/-- One relational step is deterministic. -/
theorem stepRel_det (c : PPConfig) (l : PPLine) (c1 c2 : PPConfig)
    (h1 : StepRel c l c1) (h2 : StepRel c l c2) : c1 = c2 := by
  cases h1 <;> cases h2 <;> simp_all

/-- A relational run is deterministic. -/
theorem runRel_det (c : PPConfig) (ls : List PPLine) (c1 c2 : PPConfig)
    (h1 : RunRel c ls c1) (h2 : RunRel c ls c2) : c1 = c2 := by
  induction h1 generalizing c2 with
  | nil c => cases h2 with | nil => rfl
  | cons c ca cb l ls hs hr ih =>
    cases h2 with
    | cons _ ca2 _ _ _ hs2 hr2 =>
      cases stepRel_det c l ca ca2 hs hs2
      exact ih _ hr2

/-- The step function realises the step relation. -/
theorem stepRel_step (c : PPConfig) (l : PPLine) : StepRel c l (step c l) := by
  cases l with
  | ifndefD n => exact StepRel.ifndefR c n
  | ifdefD n => exact StepRel.ifdefR c n
  | endifD => exact StepRel.endifR c
  | defineD n r =>
    cases ha : active c.stack with
    | false => simpa [step, ha] using StepRel.defineSkip c n r ha
    | true =>
      cases hl : lookupDef c.st n with
      | none => simpa [step, ha, hl] using StepRel.defineNew c n r ha hl
      | some r0 =>
        by_cases he : r0 = r
        · subst he
          simpa [step, ha, hl] using StepRel.defineSame c n r0 ha hl
        · simpa [step, ha, hl, he] using StepRel.defineRedef c n r r0 ha hl he
  | text ts =>
    cases ha : active c.stack with
    | true => simpa [step, ha] using StepRel.textOn c ts ha
    | false => simpa [step, ha] using StepRel.textOff c ts ha

/-- Processing a list of lines realises the run relation. -/
theorem runRel_processLines (c : PPConfig) (ls : List PPLine) :
    RunRel c ls (processLines c ls) := by
  induction ls generalizing c with
  | nil => exact RunRel.nil c
  | cons l ls ih =>
    exact RunRel.cons c (step c l) _ l ls (stepRel_step c l) (ih (step c l))

/-- Modelled from the spec: the SQLCipher public header
sqlite_nio_sqlcipher.h is not part of this repository; per the spec its
codec entry points (such as sqlite3_key) are declarations guarded by an
ifdef on SQLITE_HAS_CODEC.  Any such header is modelled as a guarded
block of declaration tokens. -/
def guardedHeader (decls : List String) : List PPLine :=
  [ .ifdefD "SQLITE_HAS_CODEC", .text decls, .endifD ]

/-- C1 counterexample: from an initial state in which SQLITE_HAS_CODEC
is predefined to 0, inclusion leaves it defined to 0, which is not a
nonzero integer constant, so the claim fails for that initial state. -/
theorem C1_counterexample :
    isDefined (includeExtras ⟨[("SQLITE_HAS_CODEC", ["0"])]⟩)
      "SQLITE_HAS_CODEC" = true ∧
    nonzeroIntDefined (includeExtras ⟨[("SQLITE_HAS_CODEC", ["0"])]⟩)
      "SQLITE_HAS_CODEC" = false := by
  decide

/-- C1 (amended): if SQLITE_HAS_CODEC already evaluates to a nonzero
integer constant, or neither SQLITE_HAS_CODEC nor the include guard is
defined, then after inclusion SQLITE_HAS_CODEC is defined and evaluates
to a nonzero integer constant. -/
theorem C1_nonzero_after (s : PPState)
    (h : nonzeroIntDefined s "SQLITE_HAS_CODEC" = true ∨
      (isDefined s "SQLCIPHER_EXTRAS_H" = false ∧
        isDefined s "SQLITE_HAS_CODEC" = false)) :
    isDefined (includeExtras s) "SQLITE_HAS_CODEC" = true ∧
    nonzeroIntDefined (includeExtras s) "SQLITE_HAS_CODEC" = true := by
  rcases h with h | ⟨hg, hc⟩
  · have hd : isDefined s "SQLITE_HAS_CODEC" = true := by
      revert h
      unfold nonzeroIntDefined isDefined
      cases lookupDef s "SQLITE_HAS_CODEC" <;> simp
    have hp := codec_preserved s hd
    constructor
    · simp [isDefined, hp]
      simpa [isDefined] using hd
    · unfold nonzeroIntDefined
      rw [hp]
      simpa [nonzeroIntDefined] using h
  · have h1 := codec_one s hg hc
    exact ⟨by simp [isDefined, h1], nonzeroIntDefined_of_one _ _ h1⟩

/-- C1 witness: from the empty initial state the amended hypotheses hold
and SQLITE_HAS_CODEC ends up a nonzero integer constant. -/
theorem C1_witness :
    isDefined (includeExtras emptyState) "SQLITE_HAS_CODEC" = true ∧
    nonzeroIntDefined (includeExtras emptyState) "SQLITE_HAS_CODEC" = true :=
  C1_nonzero_after emptyState (Or.inr ⟨by decide, by decide⟩)

/-- C2: if SQLITE_HAS_CODEC is already defined with any replacement V,
inclusion preserves that definition exactly, so a predefined value
(including 0 and 2) is never overridden. -/
theorem C2_preserve (s : PPState) (v : Replacement)
    (h : lookupDef s "SQLITE_HAS_CODEC" = some v) :
    lookupDef (includeExtras s) "SQLITE_HAS_CODEC" = some v := by
  have hd : isDefined s "SQLITE_HAS_CODEC" = true := by
    simp [isDefined, h]
  rw [codec_preserved s hd, h]

/-- C2 witness: a predefined value 2 is preserved. -/
theorem C2_witness :
    lookupDef (includeExtras ⟨[("SQLITE_HAS_CODEC", ["2"])]⟩)
      "SQLITE_HAS_CODEC" = some ["2"] :=
  C2_preserve ⟨[("SQLITE_HAS_CODEC", ["2"])]⟩ ["2"] (by decide)

/-- C3 counterexample: if the include-guard macro is predefined while
SQLITE_HAS_CODEC is not, inclusion leaves SQLITE_HAS_CODEC undefined, so
it does not expand to 1. -/
theorem C3_counterexample :
    isDefined (⟨[("SQLCIPHER_EXTRAS_H", [])]⟩ : PPState)
      "SQLITE_HAS_CODEC" = false ∧
    lookupDef (includeExtras ⟨[("SQLCIPHER_EXTRAS_H", [])]⟩)
      "SQLITE_HAS_CODEC" ≠ some ["1"] := by
  decide

/-- C3 (amended): if neither the include guard nor SQLITE_HAS_CODEC is
defined initially, inclusion defines SQLITE_HAS_CODEC to exactly the
integer literal 1. -/
theorem C3_defines_one (s : PPState)
    (hg : isDefined s "SQLCIPHER_EXTRAS_H" = false)
    (hc : isDefined s "SQLITE_HAS_CODEC" = false) :
    lookupDef (includeExtras s) "SQLITE_HAS_CODEC" = some ["1"] :=
  codec_one s hg hc

/-- C3 witness: from the empty state the header defines
SQLITE_HAS_CODEC to 1. -/
theorem C3_witness :
    lookupDef (includeExtras emptyState) "SQLITE_HAS_CODEC" = some ["1"] :=
  C3_defines_one emptyState (by decide) (by decide)

/-- C4 counterexample: a state reached after processing the header can
fail the invariant: starting with SQLITE_HAS_CODEC predefined to 0, the
state after inclusion does not have it as a nonzero integer literal. -/
theorem C4_counterexample :
    nonzeroIntDefined
      (includeExtras ⟨[("OTHER", ["x"]), ("SQLITE_HAS_CODEC", ["0"])]⟩)
      "SQLITE_HAS_CODEC" = false := by
  decide

/-- If SQLITE_HAS_CODEC already evaluates to a nonzero integer constant,
or neither the include guard nor SQLITE_HAS_CODEC is defined, one
inclusion leaves SQLITE_HAS_CODEC a nonzero integer constant. -/
theorem codec_nonzero_includeExtras (s : PPState)
    (h : nonzeroIntDefined s "SQLITE_HAS_CODEC" = true ∨
      (isDefined s "SQLCIPHER_EXTRAS_H" = false ∧
        isDefined s "SQLITE_HAS_CODEC" = false)) :
    nonzeroIntDefined (includeExtras s) "SQLITE_HAS_CODEC" = true := by
  rcases h with h | ⟨hg, hc⟩
  · have hd : isDefined s "SQLITE_HAS_CODEC" = true := by
      revert h
      unfold nonzeroIntDefined isDefined
      cases lookupDef s "SQLITE_HAS_CODEC" <;> simp
    unfold nonzeroIntDefined
    rw [codec_preserved s hd]
    simpa [nonzeroIntDefined] using h
  · exact nonzeroIntDefined_of_one _ _ (codec_one s hg hc)

/-- C4 (amended): from any initial state in which SQLITE_HAS_CODEC is
already a nonzero integer constant, or in which neither the include
guard nor SQLITE_HAS_CODEC is defined, every configuration reached after
processing the header one or more times has SQLITE_HAS_CODEC defined to
a nonzero integer literal, and later inclusions change nothing at all. -/
theorem C4_invariant (s : PPState) (n : Nat)
    (h : nonzeroIntDefined s "SQLITE_HAS_CODEC" = true ∨
      (isDefined s "SQLCIPHER_EXTRAS_H" = false ∧
        isDefined s "SQLITE_HAS_CODEC" = false)) :
    nonzeroIntDefined (includeN (n + 1) (initConfig s)).st
      "SQLITE_HAS_CODEC" = true ∧
    includeN (n + 1) (initConfig s) = includeOnce (initConfig s) := by
  have hfix : includeN (n + 1) (initConfig s) = includeOnce (initConfig s) := by
    show includeN n (includeOnce (initConfig s)) = includeOnce (initConfig s)
    exact includeN_fixed _ (includeOnce_fix s) n
  refine ⟨?_, hfix⟩
  rw [hfix]
  exact codec_nonzero_includeExtras s h

/-- C4 witness: three inclusions with SQLITE_HAS_CODEC predefined to the
nonzero literal 2. -/
theorem C4_witness :
    nonzeroIntDefined
      (includeN 3 (initConfig ⟨[("SQLITE_HAS_CODEC", ["2"])]⟩)).st
      "SQLITE_HAS_CODEC" = true ∧
    includeN 3 (initConfig ⟨[("SQLITE_HAS_CODEC", ["2"])]⟩) =
      includeOnce (initConfig ⟨[("SQLITE_HAS_CODEC", ["2"])]⟩) :=
  C4_invariant ⟨[("SQLITE_HAS_CODEC", ["2"])]⟩ 2 (Or.inl (by decide))

/-- C5: including the header n times (n at least 1) yields exactly the
configuration of including it once, and produces no diagnostics. -/
theorem C5_idempotent (s : PPState) (n : Nat) (h : 1 ≤ n) :
    includeN n (initConfig s) = includeN 1 (initConfig s) ∧
    (includeN n (initConfig s)).diags = [] := by
  obtain ⟨m, rfl⟩ : ∃ m, n = m + 1 := ⟨n - 1, by omega⟩
  have h1 : includeN (m + 1) (initConfig s) = includeOnce (initConfig s) := by
    show includeN m (includeOnce (initConfig s)) = includeOnce (initConfig s)
    exact includeN_fixed _ (includeOnce_fix s) m
  have h2 : includeN 1 (initConfig s) = includeOnce (initConfig s) := rfl
  refine ⟨h1.trans h2.symm, ?_⟩
  rw [h1, includeOnce_initConfig]
  rfl

/-- C5 witness: three inclusions from the empty state equal one, with no
diagnostics. -/
theorem C5_witness :
    includeN 3 (initConfig emptyState) = includeN 1 (initConfig emptyState) ∧
    (includeN 3 (initConfig emptyState)).diags = [] :=
  C5_idempotent emptyState 3 (by decide)

/-- C6: inclusion changes the definition of no macro other than
SQLITE_HAS_CODEC and the include guard SQLCIPHER_EXTRAS_H, and emits no
tokens and no diagnostics, so it contributes nothing to the translation
unit beyond those two definitions. -/
theorem C6_frame (s : PPState) (n : String)
    (h1 : n ≠ "SQLITE_HAS_CODEC") (h2 : n ≠ "SQLCIPHER_EXTRAS_H") :
    lookupDef (includeExtras s) n = lookupDef s n ∧
    (includeOnce (initConfig s)).emitted = [] ∧
    (includeOnce (initConfig s)).diags = [] := by
  refine ⟨?_, ?_, ?_⟩
  · rw [includeExtras_eq]
    cases hg : isDefined s "SQLCIPHER_EXTRAS_H" <;>
      cases hc : isDefined s "SQLITE_HAS_CODEC" <;>
        simp [lookupDef_defineSym, Ne.symm h1, Ne.symm h2]
  · rw [includeOnce_initConfig]
    rfl
  · rw [includeOnce_initConfig]
    rfl

/-- C6 witness: an unrelated macro FOO is untouched, from a state that
defines it. -/
theorem C6_witness :
    lookupDef (includeExtras ⟨[("FOO", ["bar"])]⟩) "FOO" =
      lookupDef ⟨[("FOO", ["bar"])]⟩ "FOO" ∧
    (includeOnce (initConfig ⟨[("FOO", ["bar"])]⟩)).emitted = [] ∧
    (includeOnce (initConfig ⟨[("FOO", ["bar"])]⟩)).diags = [] :=
  C6_frame ⟨[("FOO", ["bar"])]⟩ "FOO" (by decide) (by decide)

/-- C7: in a fresh translation unit, placing the shim before a header
guarded on SQLITE_HAS_CODEC makes the guarded declaration tokens
visible, while the same unit without the shim and with no prior
definition of SQLITE_HAS_CODEC emits none of them. -/
theorem C7_visibility (decls : List String) :
    (processLines (initConfig emptyState)
      (sqlcipher_extras_h ++ guardedHeader decls)).emitted = decls ∧
    (processLines (initConfig emptyState) (guardedHeader decls)).emitted
      = [] := by
  constructor
  · rw [processLines, List.foldl_append]
    have hc : isDefined (includeExtras emptyState) "SQLITE_HAS_CODEC" = true := by
      decide
    show (processLines (includeOnce (initConfig emptyState))
      (guardedHeader decls)).emitted = decls
    rw [includeOnce_initConfig]
    simp [processLines, guardedHeader, step, active, hc, initConfig]
  · simp [processLines, guardedHeader, step, active, initConfig, emptyState,
      isDefined, lookupDef, lookupL]

/-- C8: if the include-guard macro is predefined, inclusion is a
complete no-op on the whole configuration; in particular
SQLITE_HAS_CODEC can remain undefined after inclusion, so predefining
the guard disables the shim. -/
theorem C8_guard_disables (s : PPState)
    (h : isDefined s "SQLCIPHER_EXTRAS_H" = true) :
    includeOnce (initConfig s) = initConfig s ∧
    (isDefined s "SQLITE_HAS_CODEC" = false →
      isDefined (includeExtras s) "SQLITE_HAS_CODEC" = false) := by
  have hs : includeExtras s = s := by
    rw [includeExtras_eq, h]
    simp
  constructor
  · rw [includeOnce_initConfig, hs]
  · intro hc
    rw [hs]
    exact hc

/-- C8 witness: with only the guard predefined, inclusion changes
nothing and SQLITE_HAS_CODEC stays undefined. -/
theorem C8_witness :
    includeOnce (initConfig ⟨[("SQLCIPHER_EXTRAS_H", [])]⟩) =
      initConfig ⟨[("SQLCIPHER_EXTRAS_H", [])]⟩ ∧
    (isDefined (⟨[("SQLCIPHER_EXTRAS_H", [])]⟩ : PPState)
        "SQLITE_HAS_CODEC" = false →
      isDefined (includeExtras ⟨[("SQLCIPHER_EXTRAS_H", [])]⟩)
        "SQLITE_HAS_CODEC" = false) :=
  C8_guard_disables ⟨[("SQLCIPHER_EXTRAS_H", [])]⟩ (by decide)

/-- C9: processing the header is deterministic — two runs of the
relational semantics from the same initial preprocessor state end in the
same configuration, with no dependence on anything outside the state. -/
theorem C9_deterministic (s : PPState) (c1 c2 : PPConfig)
    (h1 : RunRel (initConfig s) sqlcipher_extras_h c1)
    (h2 : RunRel (initConfig s) sqlcipher_extras_h c2) : c1 = c2 :=
  runRel_det (initConfig s) sqlcipher_extras_h c1 c2 h1 h2

/-- C9 witness: two concrete runs from the empty state yield the same
configuration. -/
theorem C9_witness :
    includeOnce (initConfig emptyState) = includeOnce (initConfig emptyState) :=
  C9_deterministic emptyState _ _
    (runRel_processLines (initConfig emptyState) sqlcipher_extras_h)
    (runRel_processLines (initConfig emptyState) sqlcipher_extras_h)

end SQLCipherExtras
